import Mathlib

/-!
# CloudWise FinOps statistical core — verification development

Shallow embedding of the statistical tools of the `cloudwise_finops`
repository (`CalculateBaseline`, `DetectSpike`, `DetectTrendChange`,
`CreateForecast`) and proofs about them.

Modelling conventions:

* Python floats are modelled as exact rationals (`ℚ`); the square root taken
  by `statistics.stdev` forces the standard-deviation-dependent quantities
  into `ℝ` via `Real.sqrt`.
* `round(x, n)` is Python's banker's rounding, modelled by `pyRound`
  (round half to even on the scaled value).
* Calendar dates parsed by `datetime.strptime(_, "%Y-%m-%d")` are modelled
  as day numbers (`ℕ`), with day `0` falling on a Monday, so that
  `date.weekday()` becomes `d % 7`.
* A JSON-carrying tool argument is modelled at the parse boundary:
  `json.loads` either fails (`SeriesArg.badJson`) or yields a non-array
  (`SeriesArg.notList`) or an array of records, each record either
  yielding a parsed `(date, cost)` pair or being skipped by the per-entry
  validation (`none`).  The `baseline` argument of `DetectSpike`, whose
  claims depend on the shape of the parsed JSON itself, is modelled by a
  full JSON value type `Json`.
-/

namespace CloudWise

/-! ## Python `round` (banker's rounding) -/

/-- Round half to even to an integer, as Python's builtin `round` does. -/
def roundHalfEven {α : Type*} [LinearOrderedField α] [FloorRing α] (x : α) : ℤ :=
  if x - ⌊x⌋ < 1/2 then ⌊x⌋
  else if 1/2 < x - ⌊x⌋ then ⌊x⌋ + 1
  else if ⌊x⌋ % 2 = 0 then ⌊x⌋ else ⌊x⌋ + 1

/-- Python's `round(x, n)` for `n` decimal digits. -/
def pyRound {α : Type*} [LinearOrderedField α] [FloorRing α] (n : ℕ) (x : α) : α :=
  (roundHalfEven (x * 10 ^ n) : α) / 10 ^ n

section RoundLemmas

variable {α : Type*} [LinearOrderedField α] [FloorRing α] {x y : α}

theorem floor_le_roundHalfEven (x : α) : ⌊x⌋ ≤ roundHalfEven x := by
  unfold roundHalfEven
  split_ifs <;> omega

theorem roundHalfEven_le_floor_add_one (x : α) : roundHalfEven x ≤ ⌊x⌋ + 1 := by
  unfold roundHalfEven
  split_ifs <;> omega

@[simp] theorem roundHalfEven_intCast (z : ℤ) : roundHalfEven (z : α) = z := by
  unfold roundHalfEven
  rw [Int.floor_intCast, sub_self]
  norm_num

theorem roundHalfEven_le_of_le {z : ℤ} (h : x ≤ (z : α)) : roundHalfEven x ≤ z := by
  have hf : ⌊x⌋ ≤ z := by
    have h2 := Int.floor_le_floor h
    simpa using h2
  have key : 1/2 ≤ x - ⌊x⌋ → ⌊x⌋ + 1 ≤ z := by
    intro hge
    rcases lt_or_eq_of_le hf with hlt | heq
    · omega
    · exfalso
      have hxz : x ≤ ((⌊x⌋ : ℤ) : α) := by rw [heq]; exact h
      have : (1:α)/2 ≤ 0 := by linarith
      linarith
  unfold roundHalfEven
  split_ifs with h1 h2 h3
  · exact hf
  · exact key (le_of_lt h2)
  · exact hf
  · exact key (le_of_not_lt h1)

theorem le_roundHalfEven_of_le {z : ℤ} (h : (z : α) ≤ x) : z ≤ roundHalfEven x :=
  le_trans (Int.le_floor.mpr h) (floor_le_roundHalfEven x)

theorem roundHalfEven_mono (hxy : x ≤ y) : roundHalfEven x ≤ roundHalfEven y := by
  rcases lt_or_eq_of_le (Int.floor_le_floor hxy) with hlt | heq
  · calc roundHalfEven x ≤ ⌊x⌋ + 1 := roundHalfEven_le_floor_add_one x
      _ ≤ ⌊y⌋ := by omega
      _ ≤ roundHalfEven y := floor_le_roundHalfEven y
  · unfold roundHalfEven
    rw [← heq]
    have hfrac : x - (⌊x⌋ : α) ≤ y - (⌊x⌋ : α) := by linarith
    split_ifs <;> first | omega | linarith

theorem roundHalfEven_ratCast (q : ℚ) : roundHalfEven ((q : α)) = roundHalfEven q := by
  unfold roundHalfEven
  rw [Rat.floor_cast]
  have e1 : (q : α) - ((⌊q⌋ : ℤ) : α) = (((q - ⌊q⌋ : ℚ)) : α) := by push_cast; ring
  have e2 : (1/2 : α) = (((1/2 : ℚ)) : α) := by norm_num
  rw [e1, e2]
  simp only [Rat.cast_lt]

theorem pyRound_ratCast (n : ℕ) (q : ℚ) :
    pyRound n ((q : α)) = ((pyRound n q : ℚ) : α) := by
  unfold pyRound
  have e1 : (q : α) * 10 ^ n = ((q * 10 ^ n : ℚ) : α) := by push_cast; ring
  rw [e1, roundHalfEven_ratCast]
  push_cast
  ring

theorem pyRound_mono (n : ℕ) (hxy : x ≤ y) : pyRound n x ≤ pyRound n y := by
  unfold pyRound
  have h1 : x * 10 ^ n ≤ y * 10 ^ n := by
    apply mul_le_mul_of_nonneg_right hxy
    positivity
  have h2 := roundHalfEven_mono h1
  have h3 : ((roundHalfEven (x * 10 ^ n) : ℤ) : α) ≤ ((roundHalfEven (y * 10 ^ n) : ℤ) : α) := by
    exact_mod_cast h2
  apply div_le_div_of_nonneg_right h3  -- careful: name/direction checked below
  positivity

theorem pyRound_le_of_le (n : ℕ) {z : ℤ} (h : x ≤ (z : α)) : pyRound n x ≤ (z : α) := by
  unfold pyRound
  have h1 : x * 10 ^ n ≤ ((z * 10 ^ n : ℤ) : α) := by
    push_cast
    apply mul_le_mul_of_nonneg_right h
    positivity
  have h2 := roundHalfEven_le_of_le h1
  have h3 : ((roundHalfEven (x * 10 ^ n) : ℤ) : α) ≤ ((z * 10 ^ n : ℤ) : α) := by
    exact_mod_cast h2
  calc (roundHalfEven (x * 10 ^ n) : α) / 10 ^ n
      ≤ ((z * 10 ^ n : ℤ) : α) / 10 ^ n := by
        apply div_le_div_of_nonneg_right h3
        positivity
    _ = (z : α) := by
        push_cast
        field_simp

theorem le_pyRound_of_le (n : ℕ) {z : ℤ} (h : (z : α) ≤ x) : (z : α) ≤ pyRound n x := by
  unfold pyRound
  have h1 : ((z * 10 ^ n : ℤ) : α) ≤ x * 10 ^ n := by
    push_cast
    apply mul_le_mul_of_nonneg_right h
    positivity
  have h2 := le_roundHalfEven_of_le h1
  have h3 : ((z * 10 ^ n : ℤ) : α) ≤ ((roundHalfEven (x * 10 ^ n) : ℤ) : α) := by
    exact_mod_cast h2
  calc (z : α) = ((z * 10 ^ n : ℤ) : α) / 10 ^ n := by
        push_cast
        field_simp
    _ ≤ (roundHalfEven (x * 10 ^ n) : α) / 10 ^ n := by
        apply div_le_div_of_nonneg_right h3
        positivity

theorem pyRound_intCast (n : ℕ) (z : ℤ) : pyRound n ((z : α)) = (z : α) := by
  unfold pyRound
  have e : (z : α) * 10 ^ n = ((z * 10 ^ n : ℤ) : α) := by push_cast; ring
  rw [e, roundHalfEven_intCast]
  push_cast
  have hne : (10 : α) ^ n ≠ 0 := by positivity
  field_simp

end RoundLemmas

/-! ## `statistics.mean`, `statistics.stdev`, OLS regression over positional index -/

/-- `statistics.mean` on a list of floats (total: unreached on `[]` behind the
tools' sample-size guards). -/
def meanQ (l : List ℚ) : ℚ := l.sum / l.length

/-- Sample variance with `N - 1` denominator, the square of `statistics.stdev`
(total: the `N ≤ 1` case is unreached behind the tools' guards). -/
def sampleVarQ (l : List ℚ) : ℚ :=
  if l.length ≤ 1 then 0
  else ((l.map (fun x => (x - meanQ l) ^ 2)).sum) / ((l.length : ℚ) - 1)

/-- `statistics.stdev`: square root of the sample variance. -/
noncomputable def sampleStd (l : List ℚ) : ℝ := Real.sqrt (sampleVarQ l)

/-- `statistics.mean(range(n))`, the mean of the positional indices `0..n-1`. -/
def xMean (n : ℕ) : ℚ := meanQ ((List.range n).map (fun i : ℕ => (i : ℚ)))

/-- `sum((x - mean_x) * (y - mean_y) for x, y in zip(x_values, y_values))`
with `x_values = range(len(ys))`. -/
def slopeNum (ys : List ℚ) : ℚ :=
  ((ys.enum).map (fun p => ((p.1 : ℚ) - xMean ys.length) * (p.2 - meanQ ys))).sum

/-- `sum((x - mean_x) ** 2 for x in x_values)` with `x_values = range(n)`. -/
def slopeDen (n : ℕ) : ℚ :=
  ((List.range n).map (fun i : ℕ => ((i : ℚ) - xMean n) ^ 2)).sum

/-- OLS slope over positional index (total; the zero-denominator case is
guarded by the tools before use). -/
def olsSlope (ys : List ℚ) : ℚ := slopeNum ys / slopeDen ys.length

/-- OLS intercept `mean_y - slope * mean_x`. -/
def olsIntercept (ys : List ℚ) : ℚ := meanQ ys - olsSlope ys * xMean ys.length

/-- `sum((y - mean_y) ** 2 for y in y_values)`. -/
def ssTotal (ys : List ℚ) : ℚ := (ys.map (fun y => (y - meanQ ys) ^ 2)).sum

/-- `sum((y - pred) ** 2 ...)` for the fitted values `slope * x + intercept`. -/
def ssResidual (ys : List ℚ) : ℚ :=
  ((ys.enum).map (fun p => (p.2 - (olsSlope ys * (p.1 : ℚ) + olsIntercept ys)) ^ 2)).sum

/-- `r_squared = 1 - ss_residual / ss_total if ss_total > 0 else 0`. -/
def rSquared (ys : List ℚ) : ℚ :=
  if 0 < ssTotal ys then 1 - ssResidual ys / ssTotal ys else 0

/-! ## The series-shaped tool argument -/

/-- Outcome of `json.loads` on a series argument followed by the `isinstance`
check: a parse failure, a non-array JSON value, or an array of records.  Each
record either survives per-entry validation as a `(date, cost)` pair
(`some`) or is skipped (`none`: missing field, non-numeric cost, or
unparseable date). -/
inductive SeriesArg where
  | badJson
  | notList
  | entries (l : List (Option (ℕ × ℚ)))

/-- Comparison key used by `data_points.sort(key=lambda x: x["date"])`. -/
def dateLe (a b : ℕ × ℚ) : Prop := a.1 ≤ b.1

instance : DecidableRel dateLe := fun a b => inferInstanceAs (Decidable (a.1 ≤ b.1))

instance : IsTotal (ℕ × ℚ) dateLe := ⟨fun a b => Nat.le_total a.1 b.1⟩

instance : IsTrans (ℕ × ℚ) dateLe := ⟨fun _ _ _ h1 h2 => Nat.le_trans h1 h2⟩

/-- Python's `list.sort(key=...)` is an ascending stable sort; insertion sort
on the non-strict key order is extensionally the same function. -/
def sortByDate (l : List (ℕ × ℚ)) : List (ℕ × ℚ) := l.insertionSort dateLe

/-- `l[-k:]` for a nonnegative slice bound `k`. -/
def takeLast {α : Type*} (l : List α) (k : ℕ) : List α := l.drop (l.length - k)

theorem length_takeLast {α : Type*} (l : List α) (k : ℕ) :
    (takeLast l k).length = min k l.length := by
  simp [takeLast]
  omega

/-! ## `CalculateBaseline.run` -/

structure BaselineResult where
  baseline_mean : ℚ
  std_deviation : ℝ
  coefficient_of_variation : ℝ
  ci95_lower : ℝ
  ci95_upper : ℝ
  ci99_lower : ℝ
  ci99_upper : ℝ
  seasonal_factors : List ℚ
  sample_size : ℕ
  window_days : ℤ
  date_first : ℕ
  date_last : ℕ

inductive BaselineError where
  | invalidJson
  | notAList
  | insufficientRaw
  | invalidWindow
  | insufficientValid
deriving DecidableEq

inductive BaselineRun where
  | error (e : BaselineError)
  | ok (r : BaselineResult)

/-- The `window_days` actually used: capped to the raw history length
(`if self.window_days > len(history): self.window_days = len(history)`). -/
def effWindow (rawLen : ℕ) (window_days : ℤ) : ℤ :=
  if window_days > rawLen then rawLen else window_days

/-- Day-of-week factor for weekday `d` (`0 = Monday`):
`round(day_avg / baseline_mean, 3) if baseline_mean > 0 else 1.0` when the
weekday has samples, else `1.0`. -/
def seasonalFactor (entries : List (ℕ × ℚ)) (m : ℚ) (d : ℕ) : ℚ :=
  let dayCosts := (entries.filter (fun p => p.1 % 7 = d)).map Prod.snd
  if dayCosts.isEmpty then 1
  else if 0 < m then pyRound 3 (meanQ dayCosts / m) else 1

/-- `window_costs = costs[-self.window_days:]` — the trailing window of the
surviving valid entries, in supplied order (the tool never sorts). -/
def baselineWindowCosts (valid : List (ℕ × ℚ)) (w : ℤ) : List ℚ :=
  (takeLast valid w.toNat).map Prod.snd

/-- `std_deviation = statistics.stdev(window_costs) if len(window_costs) > 1 else 0`. -/
noncomputable def baselineStd (wc : List ℚ) : ℝ :=
  if 1 < wc.length then sampleStd wc else 0

theorem baselineStd_nonneg (wc : List ℚ) : 0 ≤ baselineStd wc := by
  unfold baselineStd
  split_ifs
  · exact Real.sqrt_nonneg _
  · exact le_refl 0

/-- Steps 4–10 of `CalculateBaseline.run`: statistics over the trailing
window of the surviving valid entries (in supplied order — the tool never
sorts). -/
noncomputable def baselineCore (valid : List (ℕ × ℚ)) (w : ℤ) (seasonal : Bool) :
    BaselineResult :=
  let windowEntries := takeLast valid w.toNat
  let wc := baselineWindowCosts valid w
  let wd := windowEntries.map Prod.fst
  let m := meanQ wc
  let σ : ℝ := baselineStd wc
  let factors : List ℚ :=
    if seasonal ∧ 14 ≤ wc.length then (List.range 7).map (seasonalFactor windowEntries m)
    else List.replicate 7 1
  let cvRaw : ℝ := if 0 < m then σ / (m : ℝ) * 100 else 0
  { baseline_mean := pyRound 2 m
    std_deviation := pyRound 2 σ
    coefficient_of_variation := pyRound 2 cvRaw
    ci95_lower := pyRound 2 (max 0 ((m : ℝ) - 2 * σ))
    ci95_upper := pyRound 2 ((m : ℝ) + 2 * σ)
    ci99_lower := pyRound 2 (max 0 ((m : ℝ) - 3 * σ))
    ci99_upper := pyRound 2 ((m : ℝ) + 3 * σ)
    seasonal_factors := factors
    sample_size := wc.length
    window_days := w
    date_first := wd.headD 0
    date_last := wd.getLastD 0 }

/-- `CalculateBaseline.run`: validation gates in source order, then the core
computation.  Every failure is a returned value (the tool's blanket
`except Exception` keeps the remaining numeric steps from escaping). -/
noncomputable def calculateBaselineRun (arg : SeriesArg) (window_days : ℤ)
    (seasonal : Bool) : BaselineRun :=
  match arg with
  | .badJson => .error .invalidJson
  | .notList => .error .notAList
  | .entries h =>
    if h.length < 14 then .error .insufficientRaw
    else if window_days < 7 then .error .invalidWindow
    else
      let valid := h.filterMap id
      if valid.length < 14 then .error .insufficientValid
      else .ok (baselineCore valid (effWindow h.length window_days) seasonal)

/-- An input on which `CalculateBaseline.run` reaches the core computation. -/
def baselineAccepted (h : List (Option (ℕ × ℚ))) (window_days : ℤ) : Prop :=
  14 ≤ h.length ∧ 7 ≤ window_days ∧ 14 ≤ (h.filterMap id).length

theorem calculateBaselineRun_accepted {h : List (Option (ℕ × ℚ))} {w : ℤ}
    (s : Bool) (hacc : baselineAccepted h w) :
    calculateBaselineRun (.entries h) w s =
      .ok (baselineCore (h.filterMap id) (effWindow h.length w) s) := by
  obtain ⟨h1, h2, h3⟩ := hacc
  simp only [calculateBaselineRun]
  rw [if_neg (by omega), if_neg (by omega), if_neg (by omega)]

/-! ## `DetectSpike.run`

The spike detector's `baseline` argument is an arbitrary JSON document, and
claim-relevant behaviour (an uncaught `TypeError`) depends on its parsed
shape, so this tool is modelled down to the JSON value level. -/

/-- A parsed JSON value (`json.loads` output). -/
inductive Json where
  | null
  | bool (b : Bool)
  | num (q : ℚ)
  | str (s : String)
  | arr (xs : List Json)
  | obj (kvs : List (String × Json))

/-- Exceptions that Python raises inside `DetectSpike.run`. -/
inductive SpikeExn where
  | typeError
  | valueError
  | keyError
  | attributeError
deriving DecidableEq

/-- `needle` is a leading segment of the second list. -/
def startsWithList {α : Type*} [DecidableEq α] : List α → List α → Bool
  | [], _ => true
  | _ :: _, [] => false
  | a :: as, b :: bs => decide (a = b) && startsWithList as bs

/-- `needle` occurs as a contiguous segment (Python's `sub in str`). -/
def containsSeq {α : Type*} [DecidableEq α] (needle : List α) : List α → Bool
  | [] => needle.isEmpty
  | b :: bs => startsWithList needle (b :: bs) || containsSeq needle bs

/-- `dict.get`-style lookup on the key/value list of a parsed JSON object;
`json.loads` keeps the later duplicate key, hence the last match. -/
def jsonDictGet (kvs : List (String × Json)) (k : String) (dflt : Json) : Json :=
  match (kvs.filter (fun p => p.1 == k)).getLast? with
  | some p => p.2
  | none => dflt

/-- Python's `key in value` on a parsed JSON value: key membership on a
dict, element equality on a list (a string key only ever equals a string
element), substring test on a string, `TypeError` on numbers, booleans and
`None`. -/
def jsonContains (j : Json) (k : String) : Except SpikeExn Bool :=
  match j with
  | .obj kvs => .ok (kvs.any (fun p => p.1 == k))
  | .arr xs => .ok (xs.any (fun x => match x with | .str s => s == k | _ => false))
  | .str s => .ok (containsSeq k.data s.data)
  | _ => .error .typeError

/-- Python's `value[key]` for a string subscript: dict item access
(`KeyError` when absent); lists and strings reject string subscripts with
`TypeError`, as do the remaining values. -/
def jsonGetItem (j : Json) (k : String) : Except SpikeExn Json :=
  match j with
  | .obj kvs =>
    match (kvs.filter (fun p => p.1 == k)).getLast? with
    | some p => .ok p.2
    | none => .error .keyError
  | _ => .error .typeError

/-- Digit-list value; `none` on a non-digit (`some 0` on the empty list,
matching Python's acceptance of `"5."` and `".5"`). -/
def digitsVal (cs : List Char) : Option ℕ :=
  cs.foldl (fun acc c =>
    acc.bind (fun n => if c.isDigit then some (n * 10 + (c.toNat - 48)) else none))
    (some 0)

/-- Split a character list on a separator character. -/
def splitOnChar (c : Char) : List Char → List (List Char)
  | [] => [[]]
  | x :: xs =>
    let r := splitOnChar c xs
    if x = c then [] :: r
    else
      match r with
      | [] => [[x]]
      | y :: ys => (x :: y) :: ys

/-- Model of Python `float(str)` on the plain decimal forms
`[±]digits[.digits]`; scientific notation, `inf`/`nan`, digit underscores
and surrounding whitespace are not modelled (no claim depends on them). -/
def parseDecimal (s : String) : Option ℚ :=
  let signBody : ℚ × List Char :=
    match s.data with
    | '-' :: rest => (-1, rest)
    | '+' :: rest => (1, rest)
    | cs => (1, cs)
  match splitOnChar '.' signBody.2 with
  | [ip] =>
    if ip.isEmpty then none
    else (digitsVal ip).map (fun n => signBody.1 * n)
  | [ip, fp] =>
    if ip.isEmpty && fp.isEmpty then none
    else
      (digitsVal ip).bind (fun i =>
        (digitsVal fp).map (fun f =>
          signBody.1 * ((i : ℚ) + (f : ℚ) / 10 ^ fp.length)))
  | _ => none

/-- Python `float(x)` on a parsed JSON value: numbers pass through,
booleans are numeric, strings are parsed (`ValueError` on failure), and
`None`/lists/dicts raise `TypeError`. -/
def pyFloatOfJson (j : Json) : Except SpikeExn ℚ :=
  match j with
  | .num q => .ok q
  | .bool b => .ok (if b then 1 else 0)
  | .str s =>
    match parseDecimal s with
    | some q => .ok q
    | none => .error .valueError
  | _ => .error .typeError

/-- A Z-score value: finite, or the `float('inf')` produced when the
standard deviation is zero and the current value differs from the mean. -/
inductive ZVal where
  | fin (q : ℚ)
  | inf
deriving DecidableEq

/-- `deviation_percent`: `(current - mean) / mean * 100`, with the zero-mean
special case `100.0` if `current > 0` else `0.0`. -/
def deviationPercent (v m : ℚ) : ℚ :=
  if m = 0 then (if 0 < v then 100 else 0) else (v - m) / m * 100

/-- `is_spike_threshold`: in the zero-mean branch the code sets the flag to
the sign test `current > 0` directly; otherwise it compares
`deviation_percent > threshold_percent`. -/
def spikeThresholdFlag (v m t : ℚ) : Bool :=
  if m = 0 then decide (0 < v) else decide (t < (v - m) / m * 100)

/-- `z_score`: `(current - mean) / std`, with the zero-std special case
`0.0` if `current == mean` else `float('inf')`. -/
def zScoreV (v m s : ℚ) : ZVal :=
  if s = 0 then (if v = m then .fin 0 else .inf) else .fin ((v - m) / s)

/-- `is_spike_zscore`: `z_score > z_score_threshold` (`inf` exceeds every
finite threshold). -/
def zExceeds (z : ZVal) (zt : ℚ) : Bool :=
  match z with
  | .inf => true
  | .fin q => decide (zt < q)

/-- `is_spike = is_spike_threshold and is_spike_zscore`. -/
def isSpike (v m s t zt : ℚ) : Bool :=
  spikeThresholdFlag v m t && zExceeds (zScoreV v m s) zt

/-- `min(100, abs(z_score) / z_score_threshold * 50)`; for an infinite
Z-score the minimum is `100` (the tool has already checked
`z_score_threshold > 0`). -/
def zConfidence (z : ZVal) (zt : ℚ) : ℚ :=
  match z with
  | .inf => 100
  | .fin q => min 100 (|q| / zt * 50)

/-- `min(100, deviation_percent / threshold_percent * 50)`. -/
def thresholdConfidence (v m t : ℚ) : ℚ := min 100 (deviationPercent v m / t * 50)

/-- `confidence = round((z_score_confidence + threshold_confidence) / 2, 1)`. -/
def spikeConfidence (v m s t zt : ℚ) : ℚ :=
  pyRound 1 ((zConfidence (zScoreV v m s) zt + thresholdConfidence v m t) / 2)

/-- The severity ladder over `deviation_percent`. -/
def severityLabel (dev : ℚ) : String :=
  if dev ≤ 20 then "NONE"
  else if dev ≤ 35 then "LOW"
  else if dev ≤ 50 then "MEDIUM"
  else if dev ≤ 100 then "HIGH"
  else "CRITICAL"

/-- `round(z, 2)` on a Z-score (`round(float('inf'), 2)` is `inf`). -/
def roundZ (z : ZVal) : ZVal :=
  match z with
  | .inf => .inf
  | .fin q => .fin (pyRound 2 q)

structure SpikeResult where
  is_spike : Bool
  current_value : ℚ
  baseline_mean : ℚ
  deviation_amount : ℚ
  deviation_percent : ℚ
  z_score : ZVal
  severity : String
  confidence : ℚ
  percent_exceeded : Bool
  z_score_exceeded : Bool
  within_95 : Bool
  within_99 : Bool
deriving DecidableEq

/-- Comparison of a fetched interval bound with the current value; only
numbers and booleans compare with a float, anything else raises
`TypeError` (caught by the tool's blanket handler). -/
def jsonAsNum (j : Json) : Except SpikeExn ℚ :=
  match j with
  | .num q => .ok q
  | .bool b => .ok (if b then 1 else 0)
  | _ => .error .typeError

/-- `within.get("lower", 0) <= v <= within.get("upper", float('inf'))` with
Python's chained-comparison short-circuit; a non-dict `within` raises
`AttributeError` at `.get`. -/
def withinInterval (ciObj : Json) (v : ℚ) : Except SpikeExn Bool :=
  match ciObj with
  | .obj kvs => do
    let low ← jsonAsNum (jsonDictGet kvs "lower" (.num 0))
    if decide (low ≤ v) then
      match (kvs.filter (fun p => p.1 == "upper")).getLast? with
      | some p => do
        let up ← jsonAsNum p.2
        pure (decide (v ≤ up))
      | none => pure true
    else pure false
  | _ => .error .attributeError

/-- `.get(k, {})` on a value that must be a dict (`AttributeError`
otherwise, caught by the blanket handler). -/
def jsonGetAttrGet (j : Json) (k : String) : Except SpikeExn Json :=
  match j with
  | .obj kvs => .ok (jsonDictGet kvs k (.obj []))
  | _ => .error .attributeError

/-- Steps 4–10 of `DetectSpike.run` (reached only with validated inputs). -/
def spikeResultOf (v m s t zt : ℚ) (w95 w99 : Bool) : SpikeResult :=
  { is_spike := isSpike v m s t zt
    current_value := v
    baseline_mean := m
    deviation_amount := pyRound 2 (v - m)
    deviation_percent := pyRound 2 (deviationPercent v m)
    z_score := roundZ (zScoreV v m s)
    severity := severityLabel (deviationPercent v m)
    confidence := spikeConfidence v m s t zt
    percent_exceeded := spikeThresholdFlag v m t
    z_score_exceeded := zExceeds (zScoreV v m s) zt
    within_95 := w95
    within_99 := w99 }

/-- Outcome of `DetectSpike.run`: a returned error string, a returned
result, or an exception escaping to the hosting process. -/
inductive SpikeRun where
  | uncaught (e : SpikeExn)
  | error
  | ok (r : SpikeResult)
deriving DecidableEq

/-- `DetectSpike.run`.  The first validation block catches only
`json.JSONDecodeError` and `(ValueError, KeyError)`, so a `TypeError`
raised there (non-container baseline JSON, or a container without string
item access) escapes as `uncaught`; everything inside the later blanket
`try`/`except Exception` turns into a returned `error` value. -/
def detectSpikeRun (current_value : ℚ) (baseline : Option Json)
    (threshold_percent z_score_threshold : ℚ) : SpikeRun :=
  if current_value < 0 then .error
  else
    match baseline with
    | none => .error
    | some j =>
      match jsonContains j "baseline_mean" with
      | .error e => .uncaught e
      | .ok false => .error
      | .ok true =>
        match jsonContains j "std_deviation" with
        | .error e => .uncaught e
        | .ok false => .error
        | .ok true =>
          match jsonGetItem j "baseline_mean" with
          | .error .keyError => .error
          | .error .valueError => .error
          | .error e => .uncaught e
          | .ok bmJ =>
            match pyFloatOfJson bmJ with
            | .error .keyError => .error
            | .error .valueError => .error
            | .error e => .uncaught e
            | .ok m =>
              match jsonGetItem j "std_deviation" with
              | .error .keyError => .error
              | .error .valueError => .error
              | .error e => .uncaught e
              | .ok sdJ =>
                match pyFloatOfJson sdJ with
                | .error .keyError => .error
                | .error .valueError => .error
                | .error e => .uncaught e
                | .ok s =>
                  if threshold_percent ≤ 0 then .error
                  else if z_score_threshold ≤ 0 then .error
                  else
                    match jsonGetAttrGet j "confidence_intervals" with
                    | .error _ => .error
                    | .ok ciJ =>
                      match jsonGetAttrGet ciJ "95_percent" with
                      | .error _ => .error
                      | .ok ci95 =>
                        match jsonGetAttrGet ciJ "99_percent" with
                        | .error _ => .error
                        | .ok ci99 =>
                          match withinInterval ci95 current_value with
                          | .error _ => .error
                          | .ok w95 =>
                            match withinInterval ci99 current_value with
                            | .error _ => .error
                            | .ok w99 =>
                              .ok (spikeResultOf current_value m s
                                threshold_percent z_score_threshold w95 w99)

/-! ## `DetectTrendChange.run` — series pipeline

Only the validated-series pipeline of the trend tool is claim-relevant
(claim C8); the regression outputs are shared with the forecaster's
`olsSlope`/`olsIntercept`/`rSquared` above. -/

/-- The surviving valid entries of the trend tool, in supplied order. -/
def trendValid (h : List (Option (ℕ × ℚ))) : List (ℕ × ℚ) := h.filterMap id

/-- `data_points.sort(key=...)` followed by
`lookback_data = data_points[-self.lookback_days:]` and the
`len(lookback_data) < 7` fallback to the full sorted list. -/
def trendLookback (h : List (Option (ℕ × ℚ))) (lookback_days : ℤ) : List (ℕ × ℚ) :=
  let sorted := sortByDate (trendValid h)
  let lb := takeLast sorted lookback_days.toNat
  if lb.length < 7 then sorted else lb

/-- An input on which `DetectTrendChange.run` reaches the regression. -/
def trendAccepted (h : List (Option (ℕ × ℚ))) (lookback_days : ℤ) (min_slope : ℚ) : Prop :=
  7 ≤ h.length ∧ 7 ≤ lookback_days ∧ 0 ≤ min_slope ∧ 7 ≤ (trendValid h).length

/-! ## `CreateForecast.run` -/

inductive ForecastError where
  | invalidDays
  | tooManyDays
  | invalidConfidence
  | badJson
  | notAList
  | insufficientRaw
  | insufficientValid
  | degenerate
  | zeroDivision
deriving DecidableEq

/-- `z_scores = {0.80: 1.28, 0.90: 1.645, 0.95: 1.96, 0.99: 2.576}` (looked
up only after the confidence level is validated). -/
def zLookup (cl : ℚ) : ℚ :=
  if cl = 0.80 then 1.28
  else if cl = 0.90 then 1.645
  else if cl = 0.95 then 1.96
  else if cl = 0.99 then 2.576
  else 0

/-- `point_forecast = slope * (n + day - 1) + intercept`. -/
def pointForecast (ys : List ℚ) (d : ℕ) : ℚ :=
  olsSlope ys * ((ys.length : ℚ) + (d : ℚ) - 1) + olsIntercept ys

/-- `std_dev = statistics.stdev(costs) if len(costs) > 1 else 0`. -/
noncomputable def fcStd (ys : List ℚ) : ℝ :=
  if 1 < ys.length then sampleStd ys else 0

/-- `interval_width = z_score * std_dev * (1 + day / 30)`. -/
noncomputable def intervalWidth (z : ℚ) (σ : ℝ) (d : ℕ) : ℝ :=
  (z : ℝ) * σ * (1 + (d : ℝ) / 30)

/-- `lower_bound = max(0, point_forecast - interval_width)`. -/
noncomputable def fcLowerRaw (ys : List ℚ) (cl : ℚ) (d : ℕ) : ℝ :=
  max 0 ((pointForecast ys d : ℝ) - intervalWidth (zLookup cl) (fcStd ys) d)

/-- `upper_bound = point_forecast + interval_width`. -/
noncomputable def fcUpperRaw (ys : List ℚ) (cl : ℚ) (d : ℕ) : ℝ :=
  (pointForecast ys d : ℝ) + intervalWidth (zLookup cl) (fcStd ys) d

structure ForecastPoint where
  date : ℕ
  day_offset : ℕ
  forecast_cost : ℚ
  lower : ℝ
  upper : ℝ

/-- One emitted forecast entry (bounds stored rounded to 2 digits). -/
noncomputable def fcPoint (lastDate : ℕ) (ys : List ℚ) (cl : ℚ) (d : ℕ) : ForecastPoint :=
  { date := lastDate + d
    day_offset := d
    forecast_cost := pyRound 2 (pointForecast ys d)
    lower := pyRound 2 (fcLowerRaw ys cl d)
    upper := pyRound 2 (fcUpperRaw ys cl d) }

/-- Step 9: direction from `abs(slope) < mean_cost * 0.01`, then the sign. -/
def fcTrendDirection (ys : List ℚ) : String :=
  if |olsSlope ys| < meanQ ys * (1/100) then "stable"
  else if 0 < olsSlope ys then "increasing"
  else "decreasing"

/-- Step 9: strength label from R². -/
def fcTrendStrength (ys : List ℚ) : String :=
  if 7/10 < rSquared ys then "strong"
  else if 2/5 < rSquared ys then "moderate"
  else "weak"

open scoped Classical in
/-- Step 10 risk flags (message text abbreviated to stable tags); the
coefficient-of-variation comparison `std_dev / mean_cost > 0.3` is the one
that divides by the mean — the zero-mean case is the `zeroDivision` gate of
`createForecastRun`. -/
noncomputable def fcRiskFactors (ys : List ℚ) : List String :=
  (if rSquared ys < 1/2 then ["low_r_squared"] else []) ++
  (if ys.length < 60 then ["limited_history"] else []) ++
  (if (3/10 : ℝ) < fcStd ys / (meanQ ys : ℝ) then ["high_volatility"] else []) ++
  (if meanQ ys * (1/20) < |olsSlope ys| then ["rapid_trend"] else [])

structure ForecastResult where
  points : List ForecastPoint
  total_forecasted_cost : ℚ
  avg_daily_forecast : ℚ
  percent_change : ℚ
  trend_direction : String
  trend_strength : String
  r_squared : ℚ
  days_analyzed : ℕ
  std_deviation : ℝ
  risk_factors : List String

/-- Steps 3–11 of `CreateForecast.run` on the surviving valid entries. -/
noncomputable def forecastCore (v : List (ℕ × ℚ)) (fd : ℕ) (cl : ℚ) : ForecastResult :=
  let sorted := sortByDate v
  let ys := sorted.map Prod.snd
  let lastDate := (sorted.map Prod.fst).getLastD 0
  let pts := (List.range fd).map (fun i => fcPoint lastDate ys cl (i + 1))
  let total := (pts.map (fun p => p.forecast_cost)).sum
  let avg := total / (pts.length : ℚ)
  { points := pts
    total_forecasted_cost := pyRound 2 total
    avg_daily_forecast := pyRound 2 avg
    percent_change := pyRound 1 (if 0 < meanQ ys then (avg - meanQ ys) / meanQ ys * 100 else 0)
    trend_direction := fcTrendDirection ys
    trend_strength := fcTrendStrength ys
    r_squared := pyRound 3 (rSquared ys)
    days_analyzed := ys.length
    std_deviation := pyRound 2 (fcStd ys)
    risk_factors := fcRiskFactors ys }

inductive ForecastRun where
  | error (e : ForecastError)
  | ok (r : ForecastResult)

/-- `CreateForecast.run`: validation gates in source order.  The
`zeroDivision` outcome models the unguarded `std_dev / mean_cost > 0.3`
at the risk-factor step, which raises `ZeroDivisionError` when the mean of
the series is zero; the blanket `except Exception` turns it into a
returned error string instead of a forecast. -/
noncomputable def createForecastRun (arg : SeriesArg) (forecast_days : ℤ) (cl : ℚ) :
    ForecastRun :=
  if forecast_days < 1 then .error .invalidDays
  else if 90 < forecast_days then .error .tooManyDays
  else if ¬(cl = 0.80 ∨ cl = 0.90 ∨ cl = 0.95 ∨ cl = 0.99) then .error .invalidConfidence
  else
    match arg with
    | .badJson => .error .badJson
    | .notList => .error .notAList
    | .entries h =>
      if h.length < 30 then .error .insufficientRaw
      else
        let valid := h.filterMap id
        if valid.length < 30 then .error .insufficientValid
        else
          let ys := (sortByDate valid).map Prod.snd
          if slopeDen ys.length = 0 then .error .degenerate
          else if meanQ ys = 0 then .error .zeroDivision
          else .ok (forecastCore valid forecast_days.toNat cl)

/-- The costs the forecaster regresses over: valid entries sorted by date. -/
def fcCosts (h : List (Option (ℕ × ℚ))) : List ℚ :=
  (sortByDate (h.filterMap id)).map Prod.snd

/-- An input on which `CreateForecast.run` returns a forecast. -/
def forecastAccepted (h : List (Option (ℕ × ℚ))) (fd : ℤ) (cl : ℚ) : Prop :=
  1 ≤ fd ∧ fd ≤ 90 ∧ (cl = 0.80 ∨ cl = 0.90 ∨ cl = 0.95 ∨ cl = 0.99) ∧
  30 ≤ h.length ∧ 30 ≤ (h.filterMap id).length ∧
  slopeDen (fcCosts h).length ≠ 0 ∧ meanQ (fcCosts h) ≠ 0

theorem createForecastRun_accepted {h : List (Option (ℕ × ℚ))} {fd : ℤ} {cl : ℚ}
    (hacc : forecastAccepted h fd cl) :
    createForecastRun (.entries h) fd cl =
      .ok (forecastCore (h.filterMap id) fd.toNat cl) := by
  obtain ⟨h1, h2, h3, h4, h5, h6, h7⟩ := hacc
  simp only [createForecastRun]
  rw [if_neg (by omega), if_neg (by omega), if_neg (not_not_intro h3),
    if_neg (by omega), if_neg (by omega), if_neg (by simpa [fcCosts] using h6),
    if_neg (by simpa [fcCosts] using h7)]

theorem zLookup_pos {cl : ℚ} (h : cl = 0.80 ∨ cl = 0.90 ∨ cl = 0.95 ∨ cl = 0.99) :
    0 < zLookup cl := by
  rcases h with h | h | h | h <;> subst h <;> norm_num [zLookup]

/-! ## Evaluation helpers for concrete series -/

/-- A well-formed history of `n` entries: dates `0, 1, …, n-1`, constant
cost `c`. -/
def constSeries (n : ℕ) (c : ℚ) : List (Option (ℕ × ℚ)) :=
  (List.range n).map (fun i => some (i, c))

theorem constSeries_length (n : ℕ) (c : ℚ) : (constSeries n c).length = n := by
  simp [constSeries]

theorem constSeries_filterMap (n : ℕ) (c : ℚ) :
    (constSeries n c).filterMap id = (List.range n).map (fun i => (i, c)) := by
  simp only [constSeries, List.filterMap_map]
  have : (id ∘ fun i : ℕ => some (i, c)) = (some ∘ fun i : ℕ => (i, c)) := rfl
  rw [this, List.filterMap_eq_map]

theorem sortByDate_range_map {n : ℕ} {c : ℚ} :
    sortByDate ((List.range n).map (fun i => (i, c))) = (List.range n).map (fun i => (i, c)) := by
  apply List.Sorted.insertionSort_eq
  unfold List.Sorted
  rw [List.pairwise_map]
  exact (List.pairwise_le_range n).imp (fun h => h)

theorem range_map_snd {n : ℕ} {c : ℚ} :
    ((List.range n).map (fun i => (i, c))).map Prod.snd = List.replicate n c := by
  rw [List.map_map]
  have : (Prod.snd ∘ fun i : ℕ => (i, c)) = (fun _ : ℕ => c) := rfl
  rw [this, List.map_const']
  simp

theorem meanQ_replicate {n : ℕ} (hn : n ≠ 0) (c : ℚ) : meanQ (List.replicate n c) = c := by
  unfold meanQ
  rw [List.sum_replicate, List.length_replicate, nsmul_eq_mul]
  have : (n : ℚ) ≠ 0 := Nat.cast_ne_zero.mpr hn
  field_simp

theorem sampleVarQ_replicate (n : ℕ) (c : ℚ) : sampleVarQ (List.replicate n c) = 0 := by
  unfold sampleVarQ
  split_ifs with h
  · rfl
  · push_neg at h
    have hn : n ≠ 0 := by
      intro hc
      simp [hc] at h
    rw [List.length_replicate] at h ⊢
    rw [meanQ_replicate hn]
    have : (List.replicate n c).map (fun x => (x - c) ^ 2) = List.replicate n 0 := by
      rw [List.map_replicate]
      simp
    rw [this, List.sum_replicate]
    simp

theorem sampleStd_replicate (n : ℕ) (c : ℚ) : sampleStd (List.replicate n c) = 0 := by
  unfold sampleStd
  rw [sampleVarQ_replicate]
  simp

theorem mem_enum_replicate_snd {n : ℕ} {c : ℚ} {p : ℕ × ℚ}
    (hp : p ∈ (List.replicate n c).enum) : p.2 = c := by
  apply List.eq_of_mem_replicate (n := n) (a := c)
  rw [← List.enum_map_snd (List.replicate n c)]
  exact List.mem_map_of_mem _ hp

theorem slopeNum_replicate {n : ℕ} (hn : n ≠ 0) (c : ℚ) :
    slopeNum (List.replicate n c) = 0 := by
  unfold slopeNum
  apply List.sum_eq_zero
  intro x hx
  rw [List.mem_map] at hx
  obtain ⟨p, hp, rfl⟩ := hx
  rw [mem_enum_replicate_snd hp, List.length_replicate, meanQ_replicate hn]
  ring

theorem olsSlope_replicate {n : ℕ} (hn : n ≠ 0) (c : ℚ) :
    olsSlope (List.replicate n c) = 0 := by
  unfold olsSlope
  rw [slopeNum_replicate hn, zero_div]

theorem olsIntercept_replicate {n : ℕ} (hn : n ≠ 0) (c : ℚ) :
    olsIntercept (List.replicate n c) = c := by
  unfold olsIntercept
  rw [olsSlope_replicate hn, meanQ_replicate hn]
  ring

theorem pointForecast_replicate {n : ℕ} (hn : n ≠ 0) (c : ℚ) (d : ℕ) :
    pointForecast (List.replicate n c) d = c := by
  unfold pointForecast
  rw [olsSlope_replicate hn, olsIntercept_replicate hn]
  ring

theorem list_range_map_sum (f : ℕ → ℚ) (n : ℕ) :
    ((List.range n).map f).sum = ∑ i ∈ Finset.range n, f i := by
  induction n with
  | zero => simp
  | succ n ih =>
    rw [List.range_succ, List.map_append, List.sum_append, Finset.sum_range_succ, ih]
    simp

theorem slopeDen_pos {n : ℕ} (hn : 2 ≤ n) : 0 < slopeDen n := by
  unfold slopeDen
  rw [list_range_map_sum]
  have hsub : ({0, 1} : Finset ℕ) ⊆ Finset.range n := by
    intro i hi
    simp only [Finset.mem_insert, Finset.mem_singleton] at hi
    rcases hi with rfl | rfl <;> simp <;> omega
  have hkey : (0 : ℚ) < ∑ i ∈ ({0, 1} : Finset ℕ), ((i : ℚ) - xMean n) ^ 2 := by
    rw [Finset.sum_pair (by norm_num : (0 : ℕ) ≠ 1)]
    push_cast
    nlinarith [sq_nonneg (xMean n - 1/2)]
  calc (0 : ℚ) < ∑ i ∈ ({0, 1} : Finset ℕ), ((i : ℚ) - xMean n) ^ 2 := hkey
    _ ≤ ∑ i ∈ Finset.range n, ((i : ℚ) - xMean n) ^ 2 := by
        apply Finset.sum_le_sum_of_subset_of_nonneg hsub
        intro i _ _
        positivity

/-! ## Small reduction lemmas for the spike detector -/

@[simp] theorem zExceeds_fin (q zt : ℚ) : zExceeds (.fin q) zt = decide (zt < q) := rfl

@[simp] theorem zExceeds_inf (zt : ℚ) : zExceeds .inf zt = true := rfl

@[simp] theorem zConfidence_fin (q zt : ℚ) :
    zConfidence (.fin q) zt = min 100 (|q| / zt * 50) := rfl

@[simp] theorem zConfidence_inf (zt : ℚ) : zConfidence .inf zt = 100 := rfl

/-- Claim C2's reading of the spike rule: `isSpike` iff
`deviationPercent > thresholdPercent` and `zScore > zThreshold` (with the
documented special-case values of the two statistics). -/
def claimIsSpike (v m s t zt : ℚ) : Bool :=
  decide (t < deviationPercent v m) && zExceeds (zScoreV v m s) zt

/-! ## Claim theorems: spike detector -/

/-- C7: for every fixed baseline mean and standard deviation and fixed
positive thresholds, `is_spike` is monotonically non-decreasing in the
current value over `0 ≤ v1 ≤ v2`. -/
theorem isSpike_monotone (m s t zt v1 v2 : ℚ) (hv1 : 0 ≤ v1) (hv : v1 ≤ v2)
    (ht : 0 < t) (hzt : 0 < zt) (h : isSpike v1 m s t zt = true) :
    isSpike v2 m s t zt = true := by
  rw [isSpike, Bool.and_eq_true] at h
  obtain ⟨h1, h2⟩ := h
  rw [isSpike, Bool.and_eq_true]
  by_cases hm : m = 0
  · subst hm
    rw [spikeThresholdFlag, if_pos rfl, decide_eq_true_eq] at h1
    have hv2 : 0 < v2 := lt_of_lt_of_le h1 hv
    refine ⟨by rw [spikeThresholdFlag, if_pos rfl, decide_eq_true_eq]; exact hv2, ?_⟩
    by_cases hsz : s = 0
    · subst hsz
      rw [zScoreV, if_pos rfl, if_neg (ne_of_gt hv2)]
      rfl
    · rw [zScoreV, if_neg hsz] at h2 ⊢
      rw [zExceeds_fin, decide_eq_true_eq] at h2 ⊢
      have hspos : 0 < s := by
        rcases lt_trichotomy s 0 with hneg | hzero | hpos
        · exfalso
          have : (v1 - 0) / s < 0 := div_neg_of_pos_of_neg (by linarith) hneg
          linarith
        · exact absurd hzero hsz
        · exact hpos
      have hmono : (v1 - 0) / s ≤ (v2 - 0) / s :=
        (div_le_div_iff_of_pos_right hspos).mpr (by linarith)
      linarith
  · rw [spikeThresholdFlag, if_neg hm, decide_eq_true_eq] at h1
    have hratio : 0 < (v1 - m) / m := by linarith
    have hmpos : 0 < m := by
      rcases lt_trichotomy m 0 with hneg | hzero | hpos
      · exfalso
        have : (v1 - m) / m < 0 := div_neg_of_pos_of_neg (by linarith) hneg
        linarith
      · exact absurd hzero hm
      · exact hpos
    have hv1m : 0 < v1 - m := by
      have hmul := mul_pos hratio hmpos
      rwa [div_mul_cancel₀ _ hm] at hmul
    constructor
    · rw [spikeThresholdFlag, if_neg hm, decide_eq_true_eq]
      have : (v1 - m) / m ≤ (v2 - m) / m := (div_le_div_iff_of_pos_right hmpos).mpr (by linarith)
      linarith
    · by_cases hsz : s = 0
      · subst hsz
        have hlt : m < v2 := by linarith
        rw [zScoreV, if_pos rfl, if_neg (ne_of_gt hlt)]
        rfl
      · rw [zScoreV, if_neg hsz] at h2 ⊢
        rw [zExceeds_fin, decide_eq_true_eq] at h2 ⊢
        have hspos : 0 < s := by
          rcases lt_trichotomy s 0 with hneg | hzero | hpos
          · exfalso
            have : (v1 - m) / s < 0 := div_neg_of_pos_of_neg hv1m hneg
            linarith
          · exact absurd hzero hsz
          · exact hpos
        have : (v1 - m) / s ≤ (v2 - m) / s := (div_le_div_iff_of_pos_right hspos).mpr (by linarith)
        linarith

/-- Witness for C7 at the concrete baseline mean 100, std 10, thresholds
20 and 2, values 130 ≤ 200. -/
theorem isSpike_monotone_witness :
    (0 : ℚ) ≤ 130 ∧ (130 : ℚ) ≤ 200 ∧ (0 : ℚ) < 20 ∧ (0 : ℚ) < 2 ∧
    isSpike 130 100 10 20 2 = true ∧ isSpike 200 100 10 20 2 = true := by
  have hbase : isSpike 130 100 10 20 2 = true := by
    rw [isSpike, spikeThresholdFlag, zScoreV, if_neg (by norm_num : (100:ℚ) ≠ 0),
      if_neg (by norm_num : (10:ℚ) ≠ 0), zExceeds_fin]
    norm_num
  refine ⟨by norm_num, by norm_num, by norm_num, by norm_num, hbase, ?_⟩
  exact isSpike_monotone 100 10 20 2 130 200 (by norm_num) (by norm_num)
    (by norm_num) (by norm_num) hbase

/-- Counterexample to C2 as stated: with a zero mean, zero std, current
value 5 and threshold 150%, the code sets the percentage flag directly and
reports a spike, while the claim's formula (`deviationPercent = 100 > 150`)
does not. -/
theorem isSpike_vs_claim_cex :
    (0 : ℚ) ≤ 5 ∧ (0 : ℚ) < 150 ∧ (0 : ℚ) < 2 ∧
    isSpike 5 0 0 150 2 = true ∧ claimIsSpike 5 0 0 150 2 = false := by
  refine ⟨by norm_num, by norm_num, by norm_num, ?_, ?_⟩ <;> decide

/-- C2 (amended): for every accepted spike input, `is_spike` holds iff the
Z-test passes and either `deviationPercent > thresholdPercent` or the mean
is zero with a positive current value (in the zero-mean branch the code
uses the sign test, not a comparison of the reported 100 against the
threshold). -/
theorem isSpike_characterization (v m s t zt : ℚ) (hv : 0 ≤ v) (ht : 0 < t)
    (hzt : 0 < zt) :
    isSpike v m s t zt = true ↔
      ((t < deviationPercent v m ∨ (m = 0 ∧ 0 < v)) ∧
        zExceeds (zScoreV v m s) zt = true) := by
  rw [isSpike, Bool.and_eq_true, spikeThresholdFlag, deviationPercent]
  by_cases hm : m = 0
  · subst hm
    by_cases hv0 : 0 < v
    · simp [hv0]
    · have hnt : ¬ t < 0 := by linarith
      simp [hv0, hnt]
  · simp [hm]

/-- Witness for C2 (amended) at current 150, mean 100, std 10,
thresholds 20 and 2. -/
theorem isSpike_characterization_witness :
    (0 : ℚ) ≤ 150 ∧ (0 : ℚ) < 20 ∧ (0 : ℚ) < 2 ∧
    (isSpike 150 100 10 20 2 = true ↔
      ((20 < deviationPercent 150 100 ∨ ((100 : ℚ) = 0 ∧ (0 : ℚ) < 150)) ∧
        zExceeds (zScoreV 150 100 10) 2 = true)) :=
  ⟨by norm_num, by norm_num, by norm_num,
    isSpike_characterization 150 100 10 20 2 (by norm_num) (by norm_num) (by norm_num)⟩

/-- C6 (amended): the returned confidence is the banker's-rounded average
of the two clamped scores; it never exceeds 100, and is nonnegative
whenever the deviation is nonnegative — but not in general (see the
counterexample below). -/
theorem spikeConfidence_eq_and_bounds (v m s t zt : ℚ) (hv : 0 ≤ v) (ht : 0 < t)
    (hzt : 0 < zt) :
    spikeConfidence v m s t zt =
      pyRound 1 ((zConfidence (zScoreV v m s) zt + thresholdConfidence v m t) / 2) ∧
    spikeConfidence v m s t zt ≤ 100 ∧
    (0 ≤ deviationPercent v m → 0 ≤ spikeConfidence v m s t zt) := by
  refine ⟨rfl, ?_, ?_⟩
  · have hz : zConfidence (zScoreV v m s) zt ≤ 100 := by
      cases zScoreV v m s with
      | inf => norm_num
      | fin q => exact min_le_left _ _
    have hth : thresholdConfidence v m t ≤ 100 := min_le_left _ _
    have havg : (zConfidence (zScoreV v m s) zt + thresholdConfidence v m t) / 2
        ≤ ((100 : ℤ) : ℚ) := by push_cast; linarith
    have hr := pyRound_le_of_le 1 havg
    unfold spikeConfidence
    calc pyRound 1 ((zConfidence (zScoreV v m s) zt + thresholdConfidence v m t) / 2)
        ≤ ((100 : ℤ) : ℚ) := hr
      _ = 100 := by norm_num
  · intro hdev
    have hz : 0 ≤ zConfidence (zScoreV v m s) zt := by
      cases zScoreV v m s with
      | inf => norm_num
      | fin q =>
        refine le_min (by norm_num) ?_
        exact mul_nonneg (div_nonneg (abs_nonneg q) (le_of_lt hzt)) (by norm_num)
    have hth : 0 ≤ thresholdConfidence v m t := by
      refine le_min (by norm_num) ?_
      exact mul_nonneg (div_nonneg hdev (le_of_lt ht)) (by norm_num)
    have havg : ((0 : ℤ) : ℚ)
        ≤ (zConfidence (zScoreV v m s) zt + thresholdConfidence v m t) / 2 := by
      push_cast; linarith
    have hr := le_pyRound_of_le 1 havg
    unfold spikeConfidence
    calc (0 : ℚ) = ((0 : ℤ) : ℚ) := by norm_num
      _ ≤ pyRound 1 ((zConfidence (zScoreV v m s) zt + thresholdConfidence v m t) / 2) := hr

/-- Witness for C6 (amended) at current 130, mean 100, std 10,
thresholds 20 and 2. -/
theorem spikeConfidence_eq_and_bounds_witness :
    (0 : ℚ) ≤ 130 ∧ (0 : ℚ) < 20 ∧ (0 : ℚ) < 2 ∧
    (spikeConfidence 130 100 10 20 2 =
      pyRound 1 ((zConfidence (zScoreV 130 100 10) 2 + thresholdConfidence 130 100 20) / 2) ∧
    spikeConfidence 130 100 10 20 2 ≤ 100 ∧
    (0 ≤ deviationPercent 130 100 → 0 ≤ spikeConfidence 130 100 10 20 2)) :=
  ⟨by norm_num, by norm_num, by norm_num,
    spikeConfidence_eq_and_bounds 130 100 10 20 2 (by norm_num) (by norm_num) (by norm_num)⟩

/-- Counterexample to C6's range clause: an accepted input (current 0,
mean 1000, std 50, thresholds 20 and 2) yields confidence −75, outside
0..100. -/
theorem spikeConfidence_negative_cex :
    (0 : ℚ) ≤ 0 ∧ (0 : ℚ) < 20 ∧ (0 : ℚ) < 2 ∧ spikeConfidence 0 1000 50 20 2 < 0 := by
  refine ⟨le_refl 0, by norm_num, by norm_num, ?_⟩
  have h1 : zScoreV 0 1000 50 = .fin (-20) := by
    rw [zScoreV, if_neg (by norm_num : (50 : ℚ) ≠ 0)]
    norm_num
  have h2 : deviationPercent 0 1000 = -100 := by
    rw [deviationPercent, if_neg (by norm_num : (1000 : ℚ) ≠ 0)]
    norm_num
  rw [spikeConfidence, thresholdConfidence, h1, h2, zConfidence_fin]
  have h3 : min (100 : ℚ) (|(-20 : ℚ)| / 2 * 50) = 100 := by
    rw [min_eq_left]
    norm_num
  have h4 : min (100 : ℚ) ((-100 : ℚ) / 20 * 50) = -250 := by
    rw [min_eq_right]
    · norm_num
    · norm_num
  rw [h3, h4]
  have h5 : ((100 : ℚ) + -250) / 2 = ((-75 : ℤ) : ℚ) := by norm_num
  rw [h5, pyRound_intCast]
  norm_num

/-- C5 evidence: `DetectSpike.run` with the perfectly valid JSON `5` for the
`baseline` argument evaluates `"baseline_mean" not in baseline_data`, which
raises a `TypeError` that the surrounding `except (json.JSONDecodeError)` /
`except (ValueError, KeyError)` clauses do not catch, so the exception
escapes to the hosting process instead of a value being returned. -/
theorem detectSpike_uncaught_typeError :
    detectSpikeRun 1 (some (.num 5)) 20 2 = .uncaught .typeError := by
  rfl

/-! ## Claim theorems: baseline estimator -/

/-- Claim C1's reading of the baseline window: surviving valid entries
sorted ascending by date before the trailing `windowDays` are selected. -/
def claimWindowCosts (h : List (Option (ℕ × ℚ))) (window_days : ℤ) : List ℚ :=
  (takeLast (sortByDate (h.filterMap id)) (effWindow h.length window_days).toNat).map Prod.snd

/-- C1 (amended): the baseline statistics are computed over the **last
`windowDays` surviving valid entries in supplied order** — the entries are
not sorted by date first. -/
theorem baseline_mean_over_unsorted_window (h : List (Option (ℕ × ℚ))) (w : ℤ)
    (s : Bool) (hacc : baselineAccepted h w) :
    calculateBaselineRun (.entries h) w s =
      .ok (baselineCore (h.filterMap id) (effWindow h.length w) s) ∧
    (baselineCore (h.filterMap id) (effWindow h.length w) s).baseline_mean =
      pyRound 2 (meanQ (baselineWindowCosts (h.filterMap id) (effWindow h.length w))) ∧
    (baselineCore (h.filterMap id) (effWindow h.length w) s).sample_size =
      (baselineWindowCosts (h.filterMap id) (effWindow h.length w)).length :=
  ⟨calculateBaselineRun_accepted s hacc, rfl, rfl⟩

/-- Witness for C1 (amended): 14 valid entries, requested window 30
(clamped to 14). -/
theorem baseline_mean_over_unsorted_window_witness :
    baselineAccepted (constSeries 14 5) 30 ∧
    (calculateBaselineRun (.entries (constSeries 14 5)) 30 true =
      .ok (baselineCore ((constSeries 14 5).filterMap id)
        (effWindow (constSeries 14 5).length 30) true) ∧
    (baselineCore ((constSeries 14 5).filterMap id)
        (effWindow (constSeries 14 5).length 30) true).baseline_mean =
      pyRound 2 (meanQ (baselineWindowCosts ((constSeries 14 5).filterMap id)
        (effWindow (constSeries 14 5).length 30))) ∧
    (baselineCore ((constSeries 14 5).filterMap id)
        (effWindow (constSeries 14 5).length 30) true).sample_size =
      (baselineWindowCosts ((constSeries 14 5).filterMap id)
        (effWindow (constSeries 14 5).length 30)).length) := by
  have hacc : baselineAccepted (constSeries 14 5) 30 := by
    refine ⟨?_, by norm_num, ?_⟩
    · rw [constSeries_length]
    · rw [constSeries_filterMap]
      simp
  exact ⟨hacc, baseline_mean_over_unsorted_window (constSeries 14 5) 30 true hacc⟩

/-- The concrete history refuting C1 as stated: the latest-dated entry is
supplied first, followed by fourteen older entries. -/
def cexHist : List (Option (ℕ × ℚ)) :=
  [some (15, 1500), some (1, 100), some (2, 100), some (3, 100), some (4, 100),
   some (5, 100), some (6, 100), some (7, 100), some (8, 100), some (9, 100),
   some (10, 100), some (11, 100), some (12, 100), some (13, 100), some (14, 100)]

/-- Counterexample to C1 as stated: on `cexHist` with `window_days = 14`
the tool averages the last 14 supplied entries (mean 100), not the last 14
entries by calendar date (mean 200). -/
theorem baseline_window_sorted_cex :
    baselineAccepted cexHist 14 ∧
    (baselineCore (cexHist.filterMap id) (effWindow cexHist.length 14) false).baseline_mean ≠
      pyRound 2 (meanQ (claimWindowCosts cexHist 14)) := by
  constructor
  · exact ⟨by decide, by decide, by decide⟩
  · have hcode : (baselineCore (cexHist.filterMap id) (effWindow cexHist.length 14)
        false).baseline_mean =
        pyRound 2 (meanQ (baselineWindowCosts (cexHist.filterMap id)
          (effWindow cexHist.length 14))) := rfl
    have h1 : baselineWindowCosts (cexHist.filterMap id) (effWindow cexHist.length 14) =
        List.replicate 14 (100 : ℚ) := by decide
    have h2 : claimWindowCosts cexHist 14 =
        [100, 100, 100, 100, 100, 100, 100, 100, 100, 100, 100, 100, 100, 1500] := by
      decide
    rw [hcode, h1, h2, meanQ_replicate (by norm_num)]
    have h3 : meanQ [(100 : ℚ), 100, 100, 100, 100, 100, 100, 100, 100, 100, 100, 100,
        100, 1500] = 200 := by
      rw [meanQ]
      norm_num
    rw [h3]
    have e100 : (100 : ℚ) = ((100 : ℤ) : ℚ) := by norm_num
    have e200 : (200 : ℚ) = ((200 : ℤ) : ℚ) := by norm_num
    rw [e100, e200, pyRound_intCast, pyRound_intCast]
    norm_num

/-- C10: for every accepted baseline input, the reported 95% confidence
interval is contained in the reported 99% interval. -/
theorem baseline_ci95_subset_ci99 (h : List (Option (ℕ × ℚ))) (w : ℤ) (s : Bool)
    (hacc : baselineAccepted h w) :
    calculateBaselineRun (.entries h) w s =
      .ok (baselineCore (h.filterMap id) (effWindow h.length w) s) ∧
    (baselineCore (h.filterMap id) (effWindow h.length w) s).ci99_lower ≤
      (baselineCore (h.filterMap id) (effWindow h.length w) s).ci95_lower ∧
    (baselineCore (h.filterMap id) (effWindow h.length w) s).ci95_upper ≤
      (baselineCore (h.filterMap id) (effWindow h.length w) s).ci99_upper := by
  refine ⟨calculateBaselineRun_accepted s hacc, ?_, ?_⟩
  all_goals
    set wc := baselineWindowCosts (h.filterMap id) (effWindow h.length w) with hwc
    have hσ : (0 : ℝ) ≤ baselineStd wc := baselineStd_nonneg wc
  · show pyRound 2 (max 0 ((meanQ wc : ℝ) - 3 * baselineStd wc)) ≤
      pyRound 2 (max 0 ((meanQ wc : ℝ) - 2 * baselineStd wc))
    apply pyRound_mono
    apply max_le_max (le_refl 0)
    linarith
  · show pyRound 2 ((meanQ wc : ℝ) + 2 * baselineStd wc) ≤
      pyRound 2 ((meanQ wc : ℝ) + 3 * baselineStd wc)
    apply pyRound_mono
    linarith

/-- Witness for C10 on the constant series of 14 days of cost 5 with
window 30. -/
theorem baseline_ci95_subset_ci99_witness :
    baselineAccepted (constSeries 14 5) 30 ∧
    ((baselineCore ((constSeries 14 5).filterMap id)
        (effWindow (constSeries 14 5).length 30) true).ci99_lower ≤
      (baselineCore ((constSeries 14 5).filterMap id)
        (effWindow (constSeries 14 5).length 30) true).ci95_lower ∧
    (baselineCore ((constSeries 14 5).filterMap id)
        (effWindow (constSeries 14 5).length 30) true).ci95_upper ≤
      (baselineCore ((constSeries 14 5).filterMap id)
        (effWindow (constSeries 14 5).length 30) true).ci99_upper) := by
  have hacc : baselineAccepted (constSeries 14 5) 30 := by
    refine ⟨?_, by norm_num, ?_⟩
    · rw [constSeries_length]
    · rw [constSeries_filterMap]
      simp
  exact ⟨hacc, (baseline_ci95_subset_ci99 (constSeries 14 5) 30 true hacc).2⟩

/-! ## Claim theorems: trend series invariant -/

/-- C8 (amended): the series the trend tool analyses is the valid entries
sorted **non-decreasingly** by date — duplicates are retained (the sorted
list is a permutation of the valid entries), and when the lookback covers
them the analysed window has exactly `min lookback validCount` entries;
nothing is deduplicated or replaced. -/
theorem trend_series_sorted_nondecreasing (h : List (Option (ℕ × ℚ))) (lb : ℤ)
    (ms : ℚ) (hacc : trendAccepted h lb ms) :
    ((trendLookback h lb).map Prod.fst).Pairwise (· ≤ ·) ∧
    (trendLookback h lb).length = min lb.toNat (trendValid h).length ∧
    (sortByDate (trendValid h)).Perm (trendValid h) := by
  obtain ⟨h1, h2, h3, h4⟩ := hacc
  have hsorted : List.Sorted dateLe (sortByDate (trendValid h)) :=
    List.sorted_insertionSort dateLe _
  have hlen : (sortByDate (trendValid h)).length = (trendValid h).length :=
    (List.perm_insertionSort dateLe _).length_eq
  have hlblen : (takeLast (sortByDate (trendValid h)) lb.toNat).length =
      min lb.toNat (trendValid h).length := by
    rw [length_takeLast, hlen]
  have hbranch : trendLookback h lb = takeLast (sortByDate (trendValid h)) lb.toNat := by
    unfold trendLookback
    rw [if_neg]
    rw [hlblen]
    omega
  refine ⟨?_, ?_, List.perm_insertionSort dateLe _⟩
  · rw [hbranch, List.pairwise_map]
    exact List.Pairwise.sublist (List.drop_sublist _ _) hsorted
  · rw [hbranch, hlblen]

/-- Witness for C8 (amended) on seven distinct-dated entries. -/
theorem trend_series_sorted_nondecreasing_witness :
    trendAccepted (constSeries 7 5) 14 5 ∧
    (((trendLookback (constSeries 7 5) 14).map Prod.fst).Pairwise (· ≤ ·) ∧
    (trendLookback (constSeries 7 5) 14).length =
      min (14 : ℤ).toNat (trendValid (constSeries 7 5)).length ∧
    (sortByDate (trendValid (constSeries 7 5))).Perm (trendValid (constSeries 7 5))) := by
  have hacc : trendAccepted (constSeries 7 5) 14 5 := ⟨by decide, by decide, by decide, by decide⟩
  exact ⟨hacc, trend_series_sorted_nondecreasing (constSeries 7 5) 14 5 hacc⟩

/-- The duplicate-date history refuting C8 as stated. -/
def dupHist : List (Option (ℕ × ℚ)) :=
  [some (1, 10), some (2, 20), some (3, 30), some (3, 40), some (4, 50),
   some (5, 60), some (6, 70)]

/-- Counterexample to C8 as stated: with two valid entries dated day 3, the
series the trend tool analyses still contains both (count 2), so its dates
are not strictly ascending and no later-entry replacement happens. -/
theorem trend_duplicate_dates_cex :
    trendAccepted dupHist 14 5 ∧
    ¬ ((trendLookback dupHist 14).map Prod.fst).Pairwise (· < ·) ∧
    ((trendLookback dupHist 14).map Prod.fst).count 3 = 2 := by
  exact ⟨⟨by decide, by decide, by decide, by decide⟩, by decide, by decide⟩

/-! ## Claim theorems: forecaster -/

theorem fcStd_nonneg (ys : List ℚ) : 0 ≤ fcStd ys := by
  unfold fcStd
  split_ifs
  · exact Real.sqrt_nonneg _
  · exact le_refl 0

theorem fcStd_replicate (n : ℕ) (c : ℚ) : fcStd (List.replicate n c) = 0 := by
  unfold fcStd
  split_ifs
  · exact sampleStd_replicate n c
  · rfl

/-- C4 evidence: on an accepted all-zero series the forecaster's risk-factor
step `std_dev / mean_cost > 0.3` divides by the zero mean; the resulting
`ZeroDivisionError` is converted by the blanket handler into a returned
error instead of a forecast result. -/
theorem forecast_zero_series_errors :
    createForecastRun (.entries (constSeries 30 0)) 30 0.80 = .error .zeroDivision := by
  have hcosts : (sortByDate ((constSeries 30 0).filterMap id)).map Prod.snd =
      List.replicate 30 (0 : ℚ) := by
    rw [constSeries_filterMap, sortByDate_range_map, range_map_snd]
  simp only [createForecastRun]
  rw [if_neg (by norm_num), if_neg (by norm_num),
    if_neg (by simp),
    if_neg (by rw [constSeries_length]; omega),
    if_neg (by rw [constSeries_filterMap]; simp),
    hcosts,
    if_neg (by rw [List.length_replicate]; exact ne_of_gt (slopeDen_pos (by norm_num))),
    if_pos (meanQ_replicate (by norm_num) 0)]

/-- C3 (amended): for every accepted forecast input, the interval width is
`zLookup(confidenceLevel) · stdDeviation · (1 + d/30)`, and it strictly
increases with the day offset whenever the series' sample variance is
positive (for a constant series every width is zero — see the
counterexample). -/
theorem intervalWidth_formula_strict_mono (h : List (Option (ℕ × ℚ))) (fd : ℤ)
    (cl : ℚ) (hacc : forecastAccepted h fd cl) (d1 d2 : ℕ)
    (hvar : 0 < sampleVarQ (fcCosts h)) (hd : d1 < d2) :
    (∀ d : ℕ, intervalWidth (zLookup cl) (fcStd (fcCosts h)) d =
      (zLookup cl : ℝ) * fcStd (fcCosts h) * (1 + (d : ℝ) / 30)) ∧
    intervalWidth (zLookup cl) (fcStd (fcCosts h)) d1 <
      intervalWidth (zLookup cl) (fcStd (fcCosts h)) d2 := by
  obtain ⟨h1, h2, h3, h4, h5, h6, h7⟩ := hacc
  refine ⟨fun d => rfl, ?_⟩
  have hzpos : (0 : ℚ) < zLookup cl := zLookup_pos h3
  have hlen : (fcCosts h).length = (h.filterMap id).length := by
    unfold fcCosts sortByDate
    rw [List.length_map]
    exact (List.perm_insertionSort dateLe _).length_eq
  have hstd : fcStd (fcCosts h) = sampleStd (fcCosts h) := by
    unfold fcStd
    rw [if_pos]
    omega
  have hσpos : 0 < fcStd (fcCosts h) := by
    rw [hstd]
    unfold sampleStd
    apply Real.sqrt_pos.mpr
    exact_mod_cast hvar
  unfold intervalWidth
  have hfac : 1 + (d1 : ℝ) / 30 < 1 + (d2 : ℝ) / 30 := by
    have : (d1 : ℝ) < (d2 : ℝ) := by exact_mod_cast hd
    linarith
  have hzσ : 0 < (zLookup cl : ℝ) * fcStd (fcCosts h) := by
    apply mul_pos _ hσpos
    exact_mod_cast hzpos
  exact mul_lt_mul_of_pos_left hfac hzσ

/-- A 30-point history with positive variance: 29 days of cost 5 and one
day of cost 35 (mean 6, sample variance 30). -/
def mixSeries : List (Option (ℕ × ℚ)) := constSeries 29 5 ++ [some (29, 35)]

theorem mixSeries_costs : fcCosts mixSeries = List.replicate 29 5 ++ [35] := by
  unfold fcCosts mixSeries
  rw [List.filterMap_append, constSeries_filterMap]
  have hfm : List.filterMap id [some ((29 : ℕ), (35 : ℚ))] = [(29, 35)] := by decide
  rw [hfm]
  have hsorted : List.Sorted dateLe
      ((List.range 29).map (fun i : ℕ => (i, (5 : ℚ))) ++ [(29, 35)]) := by decide
  unfold sortByDate
  rw [hsorted.insertionSort_eq, List.map_append, range_map_snd]
  rfl

theorem mixSeries_mean : meanQ (fcCosts mixSeries) = 6 := by
  rw [mixSeries_costs]
  unfold meanQ
  rw [List.sum_append, List.sum_replicate, List.length_append, List.length_replicate]
  norm_num

theorem mixSeries_var : sampleVarQ (fcCosts mixSeries) = 30 := by
  rw [mixSeries_costs]
  unfold sampleVarQ
  rw [if_neg (by simp)]
  have hm : meanQ (List.replicate 29 (5 : ℚ) ++ [35]) = 6 := by
    have := mixSeries_mean
    rwa [mixSeries_costs] at this
  rw [hm]
  rw [List.map_append, List.map_replicate, List.sum_append, List.sum_replicate]
  norm_num

theorem mixSeries_accepted : forecastAccepted mixSeries 30 0.80 := by
  have hlen : (fcCosts mixSeries).length = 30 := by
    rw [mixSeries_costs]
    simp
  refine ⟨by norm_num, by norm_num, Or.inl rfl, ?_, ?_, ?_, ?_⟩
  · unfold mixSeries
    rw [List.length_append, constSeries_length]
    norm_num
  · unfold mixSeries
    rw [List.filterMap_append, List.length_append, constSeries_filterMap]
    simp
  · rw [hlen]
    exact ne_of_gt (slopeDen_pos (by norm_num))
  · rw [mixSeries_mean]
    norm_num

/-- Witness for C3 (amended) on `mixSeries` at offsets 1 < 2. -/
theorem intervalWidth_formula_strict_mono_witness :
    forecastAccepted mixSeries 30 0.80 ∧ 0 < sampleVarQ (fcCosts mixSeries) ∧
    ((∀ d : ℕ, intervalWidth (zLookup 0.80) (fcStd (fcCosts mixSeries)) d =
      (zLookup 0.80 : ℝ) * fcStd (fcCosts mixSeries) * (1 + (d : ℝ) / 30)) ∧
    intervalWidth (zLookup 0.80) (fcStd (fcCosts mixSeries)) 1 <
      intervalWidth (zLookup 0.80) (fcStd (fcCosts mixSeries)) 2) := by
  have hvar : 0 < sampleVarQ (fcCosts mixSeries) := by
    rw [mixSeries_var]
    norm_num
  exact ⟨mixSeries_accepted, hvar,
    intervalWidth_formula_strict_mono mixSeries 30 0.80 mixSeries_accepted 1 2 hvar
      (by norm_num)⟩

/-- Counterexample to C3's strict-increase clause as stated: on the
accepted constant series (30 days of cost 5) the interval widths at
offsets 1 and 2 coincide (both zero). -/
theorem intervalWidth_not_strict_cex :
    forecastAccepted (constSeries 30 5) 30 0.80 ∧
    intervalWidth (zLookup 0.80) (fcStd (fcCosts (constSeries 30 5))) 1 =
      intervalWidth (zLookup 0.80) (fcStd (fcCosts (constSeries 30 5))) 2 := by
  have hcosts : fcCosts (constSeries 30 5) = List.replicate 30 5 := by
    unfold fcCosts
    rw [constSeries_filterMap, sortByDate_range_map, range_map_snd]
  constructor
  · refine ⟨by norm_num, by norm_num, Or.inl rfl, ?_, ?_, ?_, ?_⟩
    · rw [constSeries_length]
    · rw [constSeries_filterMap]
      simp
    · rw [hcosts, List.length_replicate]
      exact ne_of_gt (slopeDen_pos (by norm_num))
    · rw [hcosts, meanQ_replicate (by norm_num)]
      norm_num
  · rw [hcosts, fcStd_replicate]
    unfold intervalWidth
    ring

theorem constSeries_fcCosts (n : ℕ) (c : ℚ) :
    fcCosts (constSeries n c) = List.replicate n c := by
  unfold fcCosts
  rw [constSeries_filterMap, sortByDate_range_map, range_map_snd]

theorem constSeries_forecastAccepted (c : ℚ) (hc : c ≠ 0) :
    forecastAccepted (constSeries 30 c) 30 0.80 := by
  have hcosts := constSeries_fcCosts 30 c
  refine ⟨by norm_num, by norm_num, Or.inl rfl, ?_, ?_, ?_, ?_⟩
  · rw [constSeries_length]
  · rw [constSeries_filterMap]
    simp
  · rw [hcosts, List.length_replicate]
    exact ne_of_gt (slopeDen_pos (by norm_num))
  · rw [hcosts, meanQ_replicate (by norm_num)]
    exact hc

/-- C9 (amended): for every accepted forecast input, every emitted point
whose unclamped upper bound `pointForecast + intervalWidth` is nonnegative
has `lowerBound ≤ upperBound`; when that quantity is negative the clamped
lower bound `max(0, …)` exceeds the negative upper bound (see the
counterexample). -/
theorem forecast_bounds_ordered (h : List (Option (ℕ × ℚ))) (fd : ℤ) (cl : ℚ)
    (hacc : forecastAccepted h fd cl) :
    createForecastRun (.entries h) fd cl =
      .ok (forecastCore (h.filterMap id) fd.toNat cl) ∧
    ∀ p ∈ (forecastCore (h.filterMap id) fd.toNat cl).points,
      0 ≤ fcUpperRaw (fcCosts h) cl p.day_offset → p.lower ≤ p.upper := by
  refine ⟨createForecastRun_accepted hacc, ?_⟩
  intro p hp hup
  have hpts : (forecastCore (h.filterMap id) fd.toNat cl).points =
      (List.range fd.toNat).map (fun i =>
        fcPoint (((sortByDate (h.filterMap id)).map Prod.fst).getLastD 0)
          (fcCosts h) cl (i + 1)) := rfl
  rw [hpts, List.mem_map] at hp
  obtain ⟨i, hi, rfl⟩ := hp
  show pyRound 2 (fcLowerRaw (fcCosts h) cl (i + 1)) ≤
    pyRound 2 (fcUpperRaw (fcCosts h) cl (i + 1))
  apply pyRound_mono
  have hz : (0 : ℝ) ≤ (zLookup cl : ℝ) := by
    have := zLookup_pos hacc.2.2.1
    exact_mod_cast le_of_lt this
  have hw : 0 ≤ intervalWidth (zLookup cl) (fcStd (fcCosts h)) (i + 1) := by
    unfold intervalWidth
    apply mul_nonneg (mul_nonneg hz (fcStd_nonneg _))
    positivity
  have hup' : 0 ≤ fcUpperRaw (fcCosts h) cl (i + 1) := hup
  unfold fcLowerRaw fcUpperRaw at hup' ⊢
  apply max_le hup'
  linarith

/-- Witness for C9 (amended): the first point of the constant-5 forecast. -/
theorem forecast_bounds_ordered_witness :
    forecastAccepted (constSeries 30 5) 30 0.80 ∧
    fcPoint (((sortByDate ((constSeries 30 5).filterMap id)).map Prod.fst).getLastD 0)
        (fcCosts (constSeries 30 5)) 0.80 1 ∈
      (forecastCore ((constSeries 30 5).filterMap id) (30 : ℤ).toNat 0.80).points ∧
    (fcPoint (((sortByDate ((constSeries 30 5).filterMap id)).map Prod.fst).getLastD 0)
        (fcCosts (constSeries 30 5)) 0.80 1).lower ≤
      (fcPoint (((sortByDate ((constSeries 30 5).filterMap id)).map Prod.fst).getLastD 0)
        (fcCosts (constSeries 30 5)) 0.80 1).upper := by
  have hacc := constSeries_forecastAccepted 5 (by norm_num)
  have hcosts := constSeries_fcCosts 30 5
  have hmem : fcPoint (((sortByDate ((constSeries 30 5).filterMap id)).map Prod.fst).getLastD 0)
      (fcCosts (constSeries 30 5)) 0.80 1 ∈
      (forecastCore ((constSeries 30 5).filterMap id) (30 : ℤ).toNat 0.80).points := by
    show _ ∈ (List.range (30 : ℤ).toNat).map (fun i =>
      fcPoint (((sortByDate ((constSeries 30 5).filterMap id)).map Prod.fst).getLastD 0)
        (fcCosts (constSeries 30 5)) 0.80 (i + 1))
    exact List.mem_map.mpr ⟨0, by simp, rfl⟩
  have hup : 0 ≤ fcUpperRaw (fcCosts (constSeries 30 5)) 0.80 1 := by
    rw [hcosts]
    unfold fcUpperRaw intervalWidth
    rw [fcStd_replicate, pointForecast_replicate (by norm_num)]
    norm_num
  exact ⟨hacc, hmem, (forecast_bounds_ordered (constSeries 30 5) 30 0.80 hacc).2 _ hmem hup⟩

/-- Counterexample to C9 as stated: on the accepted constant series of cost
−5 every interval width is 0, the point forecast is −5, and the emitted
first point has `lowerBound = max(0, −5) = 0 > upperBound = −5`. -/
theorem forecast_bounds_inverted_cex :
    forecastAccepted (constSeries 30 (-5)) 30 0.80 ∧
    fcPoint (((sortByDate ((constSeries 30 (-5)).filterMap id)).map Prod.fst).getLastD 0)
        (fcCosts (constSeries 30 (-5))) 0.80 1 ∈
      (forecastCore ((constSeries 30 (-5)).filterMap id) (30 : ℤ).toNat 0.80).points ∧
    (fcPoint (((sortByDate ((constSeries 30 (-5)).filterMap id)).map Prod.fst).getLastD 0)
        (fcCosts (constSeries 30 (-5))) 0.80 1).upper <
      (fcPoint (((sortByDate ((constSeries 30 (-5)).filterMap id)).map Prod.fst).getLastD 0)
        (fcCosts (constSeries 30 (-5))) 0.80 1).lower := by
  have hacc := constSeries_forecastAccepted (-5) (by norm_num)
  have hcosts := constSeries_fcCosts 30 (-5)
  have hmem : fcPoint (((sortByDate ((constSeries 30 (-5)).filterMap id)).map Prod.fst).getLastD 0)
      (fcCosts (constSeries 30 (-5))) 0.80 1 ∈
      (forecastCore ((constSeries 30 (-5)).filterMap id) (30 : ℤ).toNat 0.80).points := by
    show _ ∈ (List.range (30 : ℤ).toNat).map (fun i =>
      fcPoint (((sortByDate ((constSeries 30 (-5)).filterMap id)).map Prod.fst).getLastD 0)
        (fcCosts (constSeries 30 (-5))) 0.80 (i + 1))
    exact List.mem_map.mpr ⟨0, by simp, rfl⟩
  refine ⟨hacc, hmem, ?_⟩
  show pyRound 2 (fcUpperRaw (fcCosts (constSeries 30 (-5))) 0.80 1) <
    pyRound 2 (fcLowerRaw (fcCosts (constSeries 30 (-5))) 0.80 1)
  rw [hcosts]
  unfold fcUpperRaw fcLowerRaw intervalWidth
  rw [fcStd_replicate, pointForecast_replicate (by norm_num)]
  have hz0 : (zLookup 0.80 : ℝ) * 0 * (1 + ((1 : ℕ) : ℝ) / 30) = 0 := by ring
  rw [hz0]
  have e1 : (((-5 : ℚ)) : ℝ) + 0 = ((-5 : ℤ) : ℝ) := by push_cast; ring
  have e2 : max (0 : ℝ) ((((-5 : ℚ)) : ℝ) - 0) = ((0 : ℤ) : ℝ) := by
    rw [max_eq_left]
    · norm_num
    · push_cast
      norm_num
  rw [e1, e2, pyRound_intCast, pyRound_intCast]
  norm_num

end CloudWise
